import Mathlib

/-
Verification of the MIPS assembler in src/ma.rs.

The whole translation pipeline of ma.rs is embedded below as executable
Lean definitions: the lexer (the regex scan over each line plus the
keyword table), the symbol-table pass, the per-line parser
(tokenize_line), the encoder (asseble_token, keeping the source's
spelling), and the emission loop of assemble_file.

Rust machine integers are modelled as Nat with explicit reduction
modulo 2^8 (u8) and 2^32 (u32) where the Rust arithmetic is performed
at those widths.  A Rust panic (index out of bounds) is modelled as
the value none of an Option-typed result; the file-reading and
console-printing glue of assemble_file is outside the model, which
takes the list of source lines and returns the list of
(address, word) pairs the loop would print, or none when the run
panics.  The Rust HashMap is modelled as an association list where
insertion prepends and lookup takes the first hit, which realises the
insert-overwrites / last-write-wins behaviour of HashMap::insert.
-/

/-- u8 arithmetic: reduce modulo 2^8. -/
def u8 (n : Nat) : Nat := n % 2 ^ 8

/-- u32 arithmetic: reduce modulo 2^32. -/
def u32 (n : Nat) : Nat := n % 2 ^ 32

/-- The instruction enumeration `Ins` of ma.rs. -/
inductive Ins
  | J | Beq | Bne | Lui | Slt | Lw | Sw | Add | Addu | Addi | Addiu
  | Sub | Subu | And | Or | Nor | Break
deriving DecidableEq

/-- `get_funct` of ma.rs; the catch-all arm prints a diagnostic and returns 0. -/
def get_funct : Ins → Nat
  | Ins.Add => 0x20
  | Ins.Addu => 0x21
  | Ins.Sub => 0x22
  | Ins.Subu => 0x23
  | Ins.And => 0x24
  | Ins.Or => 0x25
  | Ins.Nor => 0x27
  | Ins.Slt => 0x2a
  | _ => 0

/-- `get_opcode` of ma.rs; the catch-all arm returns 0. -/
def get_opcode : Ins → Nat
  | Ins.Break => 0
  | Ins.J => 2
  | Ins.Beq => 0x4
  | Ins.Bne => 0x5
  | Ins.Addi => 0x8
  | Ins.Addiu => 0x9
  | Ins.Lui => 0xf
  | Ins.Lw => 0x23
  | Ins.Sw => 0x2b
  | _ => 0

/-- The `Lexeme` enumeration of ma.rs.  `Register` carries a u8 and
`Number` a u32 in the source; the lexer below only ever constructs
register indices below 32 and numbers below 2^32. -/
inductive Lexeme
  | Comma
  | R (i : Ins)
  | I (i : Ins)
  | J (i : Ins)
  | Register (n : Nat)
  | Label (s : String)
  | Number (n : Nat)
  | OpenParen
  | CloseParen
  | Colon
deriving DecidableEq

/-- Character class `[$a-z0-9]` of the token regex in `lexer`. -/
def isWordChar (c : Char) : Bool := c == '$' || c.isLower || c.isDigit

/-- The single-character alternatives of the token regex. -/
def isPunct (c : Char) : Bool := c == ',' || c == '(' || c == ')' || c == ':'

/-- The regex `([$a-z0-9]+)|,|\(|\)|:` applied with find_iter to one
line, as a left-to-right scan carrying the pending (reversed) run of
word characters: a maximal run becomes one token, a punctuation
character becomes one token, every other character is skipped and
terminates the pending run. -/
def scanLineAux : List Char → List Char → List String
  | buf, [] => if buf.isEmpty then [] else [String.mk buf.reverse]
  | buf, c :: cs =>
    if isWordChar c then
      scanLineAux (c :: buf) cs
    else
      (if buf.isEmpty then [] else [String.mk buf.reverse]) ++
        (if isPunct c then String.mk [c] :: scanLineAux [] cs else scanLineAux [] cs)

/-- All regex matches of one line, in textual order. -/
def scanLine (l : List Char) : List String := scanLineAux [] l

/-- Numeric value of a digit string (decimal, most significant first). -/
def digitsVal (l : List Char) : Nat := l.foldl (fun a c => a * 10 + (c.toNat - 48)) 0

/-- `u32::from_str` on a token produced by the scan: such a token never
contains a sign, so parsing succeeds exactly when the token is all
decimal digits and its value fits in a u32. -/
def parse_u32 (s : String) : Option Nat :=
  if s.data ≠ [] ∧ s.data.all Char.isDigit ∧ digitsVal s.data < 2 ^ 32 then
    some (digitsVal s.data)
  else
    none

/-- The classification of one matched token in `lexer`: numbers first,
then the fixed keyword table, then the `Label` fallback. -/
def classify (s : String) : Lexeme :=
  match parse_u32 s with
  | some n => Lexeme.Number n
  | none =>
    match s with
    | "," => Lexeme.Comma
    | "(" => Lexeme.OpenParen
    | ")" => Lexeme.CloseParen
    | ":" => Lexeme.Colon
    | "and" => Lexeme.R Ins.And
    | "sub" => Lexeme.R Ins.Sub
    | "nor" => Lexeme.R Ins.Nor
    | "slt" => Lexeme.R Ins.Slt
    | "add" => Lexeme.R Ins.Add
    | "or" => Lexeme.R Ins.Or
    | "addu" => Lexeme.R Ins.Addu
    | "subu" => Lexeme.R Ins.Subu
    | "beq" => Lexeme.I Ins.Beq
    | "sw" => Lexeme.I Ins.Sw
    | "bne" => Lexeme.I Ins.Bne
    | "lui" => Lexeme.I Ins.Lui
    | "lw" => Lexeme.I Ins.Lw
    | "addi" => Lexeme.I Ins.Addi
    | "addiu" => Lexeme.I Ins.Addiu
    | "break" => Lexeme.J Ins.Break
    | "j" => Lexeme.J Ins.J
    | "zero" => Lexeme.Register 0
    | "at" => Lexeme.Register 1
    | "v0" => Lexeme.Register 2
    | "v1" => Lexeme.Register 3
    | "a0" => Lexeme.Register 4
    | "a1" => Lexeme.Register 5
    | "a2" => Lexeme.Register 6
    | "a3" => Lexeme.Register 7
    | "t0" => Lexeme.Register 8
    | "t1" => Lexeme.Register 9
    | "t2" => Lexeme.Register 10
    | "t3" => Lexeme.Register 11
    | "t4" => Lexeme.Register 12
    | "t5" => Lexeme.Register 13
    | "t6" => Lexeme.Register 14
    | "t7" => Lexeme.Register 15
    | "s0" => Lexeme.Register 16
    | "s1" => Lexeme.Register 17
    | "s2" => Lexeme.Register 18
    | "s3" => Lexeme.Register 19
    | "s4" => Lexeme.Register 20
    | "s5" => Lexeme.Register 21
    | "s6" => Lexeme.Register 22
    | "s7" => Lexeme.Register 23
    | "t8" => Lexeme.Register 24
    | "t9" => Lexeme.Register 25
    | "k0" => Lexeme.Register 26
    | "k1" => Lexeme.Register 27
    | "gp" => Lexeme.Register 28
    | "sp" => Lexeme.Register 29
    | "fp" => Lexeme.Register 30
    | "ra" => Lexeme.Register 31
    | _ => Lexeme.Label s

/-- `lexer` of ma.rs, with the line splitting of `str::lines` (I/O-side
string glue) already applied: every source line, blank ones included,
contributes one (possibly empty) lexeme list. -/
def lexer (srcLines : List String) : List (List Lexeme) :=
  srcLines.map (fun line => (scanLine line.data).map classify)

/-- The symbol table: Rust `HashMap<String, u32>` as an association
list; insertion prepends, lookup returns the first hit. -/
abbrev SymTable := List (String × Nat)

/-- `HashMap::insert`: a later insertion shadows an earlier one. -/
def insertSym (t : SymTable) (k : String) (v : Nat) : SymTable := (k, v) :: t

/-- `HashMap::get`. -/
def lookupSym : SymTable → String → Option Nat
  | [], _ => none
  | (k, v) :: t, s => if k = s then some v else lookupSym t s

/-- The per-line address increment of `build_symbol_table`:
`match line[0] { R(_) | I(_) | J(_) => 4, _ => 0 }`. -/
def instrSize : Lexeme → Nat
  | Lexeme.R _ => 4
  | Lexeme.I _ => 4
  | Lexeme.J _ => 4
  | _ => 0

/-- The loop of `build_symbol_table`: indexing `line[0]` of an empty
line panics (none); a line starting with a label inserts it at the
current address without advancing; any other line advances the u32
address counter by `instrSize` of its first lexeme. -/
def symtab_go : SymTable → Nat → List (List Lexeme) → Option SymTable
  | tbl, _, [] => some tbl
  | _, _, [] :: _ => none
  | tbl, addr, (Lexeme.Label l :: _) :: ls => symtab_go (insertSym tbl l addr) addr ls
  | tbl, addr, (lx :: _) :: ls => symtab_go tbl (u32 (addr + instrSize lx)) ls

/-- `build_symbol_table` of ma.rs: the counter starts at 0. -/
def build_symbol_table (lines : List (List Lexeme)) : Option SymTable :=
  symtab_go [] 0 lines

/-- The `Token` enumeration of ma.rs (structured instruction records). -/
inductive Token
  | R (op rs rt rd shamt funct : Nat)
  | I (op rs rt imm : Nat)
  | J (op addr : Nat)
deriving DecidableEq

/-- The `if let Lexeme::Register(val) .. else .. 0` pattern of
tokenize_line: a diagnostic is printed for the default case. -/
def regOrZero : Lexeme → Nat
  | Lexeme.Register v => v
  | _ => 0

/-- The `if let Lexeme::Number(number) .. else .. 0` pattern. -/
def numOrZero : Lexeme → Nat
  | Lexeme.Number n => n
  | _ => 0

/-- The `if let Lexeme::Label .. symbol_table.get .. else .. 0`
pattern: an unresolved label or a non-label lexeme yields 0 after a
diagnostic. -/
def labelAddrOrZero (x : Lexeme) (st : SymTable) : Nat :=
  match x with
  | Lexeme.Label l => (lookupSym st l).getD 0
  | _ => 0

/-- The `(s, t, i)` computation of the `Lexeme::I(ins)` arm of
tokenize_line.  `rest` is the line with its leading mnemonic removed,
so a source line of n lexemes gives a `rest` of n - 1.  The Lui arm
with a line of 4 lexemes whose operand is not a Number evaluates
`line[4]` inside its diagnostic, an out-of-bounds index: that panic is
the value none. -/
def iFields (ins : Ins) (rest : List Lexeme) (st : SymTable) : Option (Nat × Nat × Nat) :=
  match ins with
  | Ins.Beq | Ins.Bne =>
    match rest with
    | [x1, _, x3, _, x5] => some (regOrZero x1, regOrZero x3, labelAddrOrZero x5 st)
    | _ => some (0, 0, 0)
  | Ins.Addi | Ins.Addiu =>
    match rest with
    | [x1, _, x3, _, x5] => some (regOrZero x3, regOrZero x1, numOrZero x5)
    | _ => some (0, 0, 0)
  | Ins.Lw | Ins.Sw =>
    match rest with
    | [x1, _, x3, _, x5, _] => some (regOrZero x5, regOrZero x1, numOrZero x3)
    | [x1, _, x3] => some (regOrZero x3, regOrZero x1, 0)
    | _ => some (0, 0, 0)
  | Ins.Lui =>
    match rest with
    | [x1, _, x3] =>
      match x3 with
      | Lexeme.Number n => some (0, regOrZero x1, n)
      | _ => none
    | _ => some (0, 0, 0)
  | _ => some (0, 0, 0)

/-- `tokenize_line` of ma.rs.  The result is none when the Rust code
panics, some none when the line yields no token (`None`), and
some (some tok) when it yields `Some(tok)`. -/
def tokenize_line (line : List Lexeme) (st : SymTable) : Option (Option Token) :=
  match line with
  | [] => some none
  | Lexeme.R ins :: rest =>
    match rest with
    | [x1, _, x3, _, x5] =>
      some (some (Token.R 0 (regOrZero x3) (regOrZero x5) (regOrZero x1) 0 (get_funct ins)))
    | _ => some none
  | Lexeme.I ins :: rest =>
    match iFields ins rest st with
    | none => none
    | some (s, t, i) => some (some (Token.I (get_opcode ins) s t i))
  | Lexeme.J Ins.J :: rest =>
    match rest with
    | [x1] => some (some (Token.J (get_opcode Ins.J) (labelAddrOrZero x1 st)))
    | _ => some none
  | Lexeme.J Ins.Break :: rest =>
    match rest with
    | [_] => some (some (Token.J (get_opcode Ins.Break) 0xd))
    | _ => some none
  | _ => some none

/-- `asseble_token` of ma.rs (source spelling kept): pack the fields
with u32 shifts and bitwise or; the u8 fields are reduced to their
type's width where the source reads them `as u32`. -/
def asseble_token : Token → Nat
  | Token.R op rs rt rd shamt funct =>
    u32 (u8 op <<< 26) ||| u32 (u8 rs <<< 21) ||| u32 (u8 rt <<< 16) |||
      u32 (u8 rd <<< 11) ||| u32 (u8 shamt <<< 6) ||| u8 funct
  | Token.I op rs rt imm =>
    u32 (u8 op <<< 26) ||| u32 (u8 rs <<< 21) ||| u32 (u8 rt <<< 16) ||| u32 imm
  | Token.J op addr => u32 (u8 op <<< 26) ||| u32 addr

/-- The emission loop of `assemble_file`: `line_nr` starts at 0 and
advances by 4 (u32) only when a line yields a token; a panicking line
aborts the run. -/
def assemble_lines (addr : Nat) (lines : List (List Lexeme)) (st : SymTable) :
    Option (List (Nat × Nat)) :=
  match lines with
  | [] => some []
  | l :: ls =>
    match tokenize_line l st with
    | none => none
    | some none => assemble_lines addr ls st
    | some (some tok) =>
      match assemble_lines (u32 (addr + 4)) ls st with
      | none => none
      | some rest => some ((addr, asseble_token tok) :: rest)

/-- `assemble_file` of ma.rs with the file reading and printing glue
stripped: from the list of source lines to the (address, word) pairs
printed, or none when the run panics. -/
def assemble_file (srcLines : List String) : Option (List (Nat × Nat)) :=
  match build_symbol_table (lexer srcLines) with
  | none => none
  | some st => assemble_lines 0 (lexer srcLines) st

/-- Modelled from the amended claim C2 (spec-side reference): the
address at which a label is recorded, looking at the lines from left
to right with a byte-address counter that starts at the given value,
ignores pure-label lines, and advances by the instruction size of any
other line's first lexeme; a later definition of the same label wins. -/
def spec_label_addr : Nat → List (List Lexeme) → String → Option Nat
  | _, [], _ => none
  | _, [] :: _, _ => none
  | a, (Lexeme.Label l :: _) :: ls, lbl =>
    match spec_label_addr a ls lbl with
    | some v => some v
    | none => if l = lbl then some a else none
  | a, (lx :: _) :: ls, lbl => spec_label_addr (u32 (a + instrSize lx)) ls lbl

example : lexer ["add t0, t1, t2"] =
    [[Lexeme.R Ins.Add, Lexeme.Register 8, Lexeme.Comma, Lexeme.Register 9,
      Lexeme.Comma, Lexeme.Register 10]] := by decide

/-- Distributing a power-of-two remainder over bitwise or. -/
theorem or_mod_two_pow (a b n : Nat) : (a ||| b) % 2 ^ n = a % 2 ^ n ||| b % 2 ^ n := by
  apply Nat.eq_of_testBit_eq
  intro i
  simp [Nat.testBit_mod_two_pow, Bool.and_or_distrib_left]

/-- Distributing a right shift over bitwise or. -/
theorem or_shiftRight (a b n : Nat) : (a ||| b) >>> n = a >>> n ||| b >>> n := by
  apply Nat.eq_of_testBit_eq
  intro i
  simp

/-- A u32 left shift by at least n bits leaves no residue modulo 2^n
(for n up to the word width). -/
theorem u32_shiftLeft_mod_eq_zero (x m n : Nat) (hnm : n ≤ m) (hn : n ≤ 32) :
    u32 (x <<< m) % 2 ^ n = 0 := by
  have h1 : u32 (x <<< m) % 2 ^ n = (x <<< m) % 2 ^ n :=
    Nat.mod_mod_of_dvd _ (Nat.pow_dvd_pow 2 hn)
  have h2 : x * 2 ^ m = x * 2 ^ (m - n) * 2 ^ n := by
    rw [mul_assoc, ← pow_add]
    congr 2
    omega
  rw [h1, Nat.shiftLeft_eq, h2, Nat.mul_mod_left]

/-- Claim C10: a line whose first lexeme is a label parses to no
instruction record, contributes no output word and leaves the emission
address unchanged, whatever follows the label on the line; and the
symbol-table pass records the label at the current address without
advancing the counter. -/
theorem c10_label_line_no_word_no_advance
    (lbl : String) (rest : List Lexeme) (st tbl : SymTable)
    (addr a : Nat) (ls : List (List Lexeme)) :
    tokenize_line (Lexeme.Label lbl :: rest) st = some none ∧
    symtab_go tbl addr ((Lexeme.Label lbl :: rest) :: ls)
      = symtab_go (insertSym tbl lbl addr) addr ls ∧
    assemble_lines a ((Lexeme.Label lbl :: rest) :: ls) st = assemble_lines a ls st :=
  ⟨rfl, rfl, rfl⟩

/-- Claim C7: the break arm of tokenize_line checks `line.len() != 2`,
so a bare break line (one lexeme) is rejected with no output word,
exactly one trailing lexeme of any kind yields the 0xd word, and two
or more trailing lexemes are again rejected.  The code's own
diagnostic says "expected 1", so the intended check was against one
lexeme, as the claim states: the `!= 2` comparison is the bug. -/
theorem c7_break_requires_one_trailing_lexeme :
    (∀ st : SymTable, tokenize_line [Lexeme.J Ins.Break] st = some none) ∧
    (∀ (x : Lexeme) (st : SymTable),
      tokenize_line [Lexeme.J Ins.Break, x] st = some (some (Token.J 0 0xd))) ∧
    (∀ (x y : Lexeme) (rest : List Lexeme) (st : SymTable),
      tokenize_line (Lexeme.J Ins.Break :: x :: y :: rest) st = some none) :=
  ⟨fun _ => rfl, fun _ _ => rfl, fun _ _ _ _ => rfl⟩

/-- Claim C3, counterexample: the sigil form `$t0` is not in the
keyword table and lexes as a label, so `add $t0, $t1, $t2` assembles
with rd = rs = rt = 0, giving the word 0x20 instead of the claimed
0x012A4020 (rd=8, rs=9, rt=10). -/
theorem c3_counterexample :
    classify "$t0" = Lexeme.Label "$t0" ∧
    assemble_file ["add $t0, $t1, $t2"] = some [(0, 0x20)] ∧
    (0x20 : Nat) ≠ 0x012A4020 := by decide

/-- Claim C3, amended: the keyword table recognizes register names in
bare form only; the sigil-prefixed form falls through to `Label`, and
the bare-form line `add t0, t1, t2` yields the single register-format
word with opcode 0, funct 0x20, rd=8, rs=9, rt=10. -/
theorem c3_amended_bare_register_names :
    classify "t0" = Lexeme.Register 8 ∧
    classify "t1" = Lexeme.Register 9 ∧
    classify "t2" = Lexeme.Register 10 ∧
    classify "zero" = Lexeme.Register 0 ∧
    classify "$t0" = Lexeme.Label "$t0" ∧
    classify "$zero" = Lexeme.Label "$zero" ∧
    assemble_file ["add t0, t1, t2"] = some [(0, 0x012A4020)] := by decide

/-- Claim C4, counterexample: a lui line whose operand is a label
panics (the diagnostic in the else branch indexes `line[4]` of a
four-lexeme line), so the run aborts instead of returning normally. -/
theorem c4_counterexample : assemble_file ["lui t0, x", "x:"] = none := by decide

/-- Claim C4, amended: a lui line `register, comma, operand` parses to
an immediate-format record (opcode 0xf, rs 0) only when the operand is
a number; a label operand is not resolved through the symbol table but
makes the parser abort via an out-of-bounds index in its diagnostic,
and no base-register check exists anywhere in the lui arm. -/
theorem c4_amended_lui_number_only (t n : Nat) (lbl : String) (st : SymTable) :
    tokenize_line [Lexeme.I Ins.Lui, Lexeme.Register t, Lexeme.Comma, Lexeme.Number n] st
      = some (some (Token.I 0xf 0 t n)) ∧
    tokenize_line [Lexeme.I Ins.Lui, Lexeme.Register t, Lexeme.Comma, Lexeme.Label lbl] st
      = none :=
  ⟨rfl, rfl⟩

/-- Claim C8, counterexample: the bare-immediate form `lw t0, 4` does
not give offset 4 with implicit zero base; it falls into the
four-lexeme branch that expects a base register, the offset is lost
(defaulted to 0 after a diagnostic), and the emitted word is
0x8C080000 instead of the claimed 0x8C080004. -/
theorem c8_counterexample :
    assemble_file ["lw t0, 4"] = some [(0, 0x8C080000)] ∧
    assemble_file ["lw t0, 4"] ≠ some [(0, 0x8C080004)] := by decide

/-- Claim C8, amended: of the four claimed surface forms, lw/sw accept
only `imm(reg)` (seven lexemes: offset and base as stated); the
four-lexeme branch reads its operand as a bare base register with
implicit zero offset, so a bare immediate or bare label there is
defaulted to base 0 and offset 0 rather than used; `(reg)` (six
lexemes) falls to the wrong-count branch with every field zero.  In
all cases an immediate record is still produced. -/
theorem c8_amended_lw_sw_forms (t s i : Nat) (lbl : String) (st : SymTable) :
    tokenize_line [Lexeme.I Ins.Lw, Lexeme.Register t, Lexeme.Comma, Lexeme.Number i,
      Lexeme.OpenParen, Lexeme.Register s, Lexeme.CloseParen] st
      = some (some (Token.I 0x23 s t i)) ∧
    tokenize_line [Lexeme.I Ins.Sw, Lexeme.Register t, Lexeme.Comma, Lexeme.Number i,
      Lexeme.OpenParen, Lexeme.Register s, Lexeme.CloseParen] st
      = some (some (Token.I 0x2b s t i)) ∧
    tokenize_line [Lexeme.I Ins.Lw, Lexeme.Register t, Lexeme.Comma, Lexeme.Register s] st
      = some (some (Token.I 0x23 s t 0)) ∧
    tokenize_line [Lexeme.I Ins.Lw, Lexeme.Register t, Lexeme.Comma, Lexeme.OpenParen,
      Lexeme.Register s, Lexeme.CloseParen] st = some (some (Token.I 0x23 0 0 0)) ∧
    tokenize_line [Lexeme.I Ins.Lw, Lexeme.Register t, Lexeme.Comma, Lexeme.Number i] st
      = some (some (Token.I 0x23 0 t 0)) ∧
    tokenize_line [Lexeme.I Ins.Lw, Lexeme.Register t, Lexeme.Comma, Lexeme.Label lbl] st
      = some (some (Token.I 0x23 0 t 0)) :=
  ⟨rfl, rfl, rfl, rfl, rfl, rfl⟩

/-- Claim C1, counterexample: branching forward one instruction to a
label, the claim's displacement `(~0) + target_index` masked to 16
bits is 0, but the emitted word 0x11090004 carries 4 in its immediate
field: the raw byte address of the label, not a PC-relative value. -/
theorem c1_counterexample :
    assemble_file ["beq t0, t1, l", "l:"] = some [(0, 0x11090004)] ∧
    (0x11090004 : Nat) % 2 ^ 16 = 4 ∧ (4 : Nat) ≠ 0 := by decide

/-- Claim C1, amended: for a beq or bne line whose address operand is
a label found in the symbol table, the immediate field of the record
is the stored value itself — the label's raw byte address — used
absolutely, with no complement, no subtraction and no 16-bit masking,
so forward and backward branches at equal relative distance get
different immediates. -/
theorem c1_amended_branch_immediate_is_absolute
    (s t : Nat) (lbl : String) (st : SymTable) (a : Nat)
    (h : lookupSym st lbl = some a) :
    tokenize_line [Lexeme.I Ins.Beq, Lexeme.Register s, Lexeme.Comma, Lexeme.Register t,
      Lexeme.Comma, Lexeme.Label lbl] st = some (some (Token.I 0x4 s t a)) ∧
    tokenize_line [Lexeme.I Ins.Bne, Lexeme.Register s, Lexeme.Comma, Lexeme.Register t,
      Lexeme.Comma, Lexeme.Label lbl] st = some (some (Token.I 0x5 s t a)) := by
  constructor <;>
    simp [tokenize_line, iFields, labelAddrOrZero, regOrZero, get_opcode, h]

theorem c1_amended_witness :
    lookupSym [("x", 8)] "x" = some 8 ∧
    tokenize_line [Lexeme.I Ins.Beq, Lexeme.Register 8, Lexeme.Comma, Lexeme.Register 9,
      Lexeme.Comma, Lexeme.Label "x"] [("x", 8)] = some (some (Token.I 0x4 8 9 8)) :=
  ⟨by decide, (c1_amended_branch_immediate_is_absolute 8 9 "x" [("x", 8)] 8 (by decide)).1⟩

/-- Claim C2, counterexample: after one instruction the label `l` is
recorded with value 4 — the raw byte address — not the claimed
instruction index 4 >> 2 = 1. -/
theorem c2_counterexample :
    build_symbol_table (lexer ["add t0, t1, t2", "l:"]) = some [("l", 4)] ∧
    lookupSym [("l", 4)] "l" = some 4 ∧ (4 : Nat) ≠ 4 >>> 2 := by decide

/-- Claim C5, counterexample: a source text with a blank line does not
complete: the blank line survives into the symbol-table pass, which
panics indexing its first lexeme, aborting the whole run. -/
theorem c5_counterexample : assemble_file ["", "break x"] = none := by decide

/-- Claim C6, counterexample: the four-lexeme line `beq t0, t1` fails
structurally (wrong operand count), yet it still contributes the
output word 0x10000000 with all failed fields zeroed, and the emission
address advances past it, so the output is not the [(0, 0xd)] the
claim predicts. -/
theorem c6_counterexample :
    assemble_file ["beq t0, t1", "break x"] = some [(0, 0x10000000), (4, 0xd)] ∧
    assemble_file ["beq t0, t1", "break x"] ≠ some [(0, 0xd)] := by decide

/-- The loop invariant of the symbol-table pass: when the loop runs to
completion from any accumulator, looking a label up in the result
finds the amended claim's address when the remaining lines define the
label, and otherwise falls back to the accumulator. -/
theorem symtab_go_lookup (ls : List (List Lexeme)) :
    ∀ (tbl : SymTable) (a : Nat) (st : SymTable), symtab_go tbl a ls = some st →
      ∀ lbl, lookupSym st lbl =
        match spec_label_addr a ls lbl with
        | some v => some v
        | none => lookupSym tbl lbl := by
  induction ls with
  | nil =>
    intro tbl a st h lbl
    simp only [symtab_go, Option.some.injEq] at h
    subst h
    rfl
  | cons line ls ih =>
    intro tbl a st h lbl
    match line with
    | [] => simp [symtab_go] at h
    | Lexeme.Label l :: rest =>
      have h2 := ih (insertSym tbl l a) a st h lbl
      rw [h2]
      show _ = (match (match spec_label_addr a ls lbl with
        | some v => some v
        | none => if l = lbl then some a else none) with
        | some v => some v
        | none => lookupSym tbl lbl)
      cases hs : spec_label_addr a ls lbl with
      | some v => rfl
      | none =>
        show lookupSym (insertSym tbl l a) lbl = _
        by_cases hl : l = lbl <;> simp [insertSym, lookupSym, hl]
    | Lexeme.Comma :: rest => exact ih tbl _ st h lbl
    | Lexeme.R i0 :: rest => exact ih tbl _ st h lbl
    | Lexeme.I i0 :: rest => exact ih tbl _ st h lbl
    | Lexeme.J i0 :: rest => exact ih tbl _ st h lbl
    | Lexeme.Register r :: rest => exact ih tbl _ st h lbl
    | Lexeme.Number n :: rest => exact ih tbl _ st h lbl
    | Lexeme.OpenParen :: rest => exact ih tbl _ st h lbl
    | Lexeme.CloseParen :: rest => exact ih tbl _ st h lbl
    | Lexeme.Colon :: rest => exact ih tbl _ st h lbl

/-- Claim C2, amended: every label declaration is recorded at the raw
byte address of the line — no shift by 2 — where the counter starts
at 0 (no base address), advances by 4 for each line beginning with an
instruction mnemonic, and by 0 for label lines and any other line;
a later definition of the same label wins. -/
theorem c2_amended_labels_raw_byte_address
    (lines : List (List Lexeme)) (st : SymTable)
    (h : build_symbol_table lines = some st) (lbl : String) :
    lookupSym st lbl = spec_label_addr 0 lines lbl := by
  have h2 := symtab_go_lookup lines [] 0 st h lbl
  rw [h2]
  cases hs : spec_label_addr 0 lines lbl <;> simp [lookupSym]

theorem c2_amended_witness :
    build_symbol_table (lexer ["add t0, t1, t2", "l:"]) = some [("l", 4)] ∧
    lookupSym [("l", 4)] "l" = spec_label_addr 0 (lexer ["add t0, t1, t2", "l:"]) "l" :=
  ⟨by decide, c2_amended_labels_raw_byte_address _ _ (by decide) "l"⟩

/-- The symbol-table loop panics as soon as it reaches an empty line. -/
theorem symtab_go_none_of_mem_nil (ls : List (List Lexeme)) :
    ∀ (tbl : SymTable) (a : Nat), [] ∈ ls → symtab_go tbl a ls = none := by
  induction ls with
  | nil => intro tbl a h; cases h
  | cons line ls ih =>
    intro tbl a h
    match line with
    | [] => rfl
    | x :: rest =>
      have h2 : ([] : List Lexeme) ∈ ls := by
        rcases List.mem_cons.mp h with h1 | h1
        · exact (List.cons_ne_nil x rest h1.symm).elim
        · exact h1
      cases x <;> exact ih _ _ h2

/-- Claim C5, amended: lines that lex to zero lexemes are not filtered
out of the lexeme stream; the parser skips them through an explicit
length-zero check, but the symbol-table pass indexes the first lexeme
of every line, so any lexeme stream containing an empty line makes the
run abort before parsing begins. -/
theorem c5_amended_empty_lines_crash_symtab :
    (∀ st : SymTable, tokenize_line [] st = some none) ∧
    (∀ lines : List (List Lexeme), [] ∈ lines → build_symbol_table lines = none) :=
  ⟨fun _ => rfl, fun lines h => symtab_go_none_of_mem_nil lines [] 0 h⟩

theorem c5_amended_witness :
    (([] : List Lexeme) ∈ [([] : List Lexeme)]) ∧ build_symbol_table [[]] = none :=
  ⟨by simp, c5_amended_empty_lines_crash_symtab.2 [[]] (by simp)⟩

/-- Claim C6, amended: a register-family line with the wrong lexeme
count, and a j or break line failing its length check (the code
expects exactly one lexeme after either mnemonic), produce no output
word and do not advance the emission address, and subsequent lines
assemble as if they were absent; a register-family line of the right
length with wrong-kind operands defaults them to register 0 and still
emits; and an immediate-family line that fails structurally — wrong
operand count (beq with two operands), wrong operand kind (addi with a
label where a number belongs), or an unresolved label (beq) — still
emits a word with the failed fields zeroed. -/
theorem c6_amended_structural_failures
    (ins : Ins) (rest : List Lexeme) (st : SymTable) (a : Nat)
    (ls : List (List Lexeme)) (h : rest.length ≠ 5) :
    tokenize_line (Lexeme.R ins :: rest) st = some none ∧
    assemble_lines a ((Lexeme.R ins :: rest) :: ls) st = assemble_lines a ls st ∧
    (∀ rest2 : List Lexeme, rest2.length ≠ 1 →
      tokenize_line (Lexeme.J Ins.J :: rest2) st = some none ∧
      tokenize_line (Lexeme.J Ins.Break :: rest2) st = some none ∧
      assemble_lines a ((Lexeme.J Ins.J :: rest2) :: ls) st = assemble_lines a ls st ∧
      assemble_lines a ((Lexeme.J Ins.Break :: rest2) :: ls) st = assemble_lines a ls st) ∧
    (∀ lb1 lb3 lb5 : String,
      tokenize_line [Lexeme.R ins, Lexeme.Label lb1, Lexeme.Comma, Lexeme.Label lb3,
        Lexeme.Comma, Lexeme.Label lb5] st
        = some (some (Token.R 0 0 0 0 0 (get_funct ins)))) ∧
    (∀ s t : Nat, tokenize_line [Lexeme.I Ins.Beq, Lexeme.Register s, Lexeme.Comma,
      Lexeme.Register t] st = some (some (Token.I 0x4 0 0 0))) ∧
    (∀ (s t : Nat) (lbl : String), lookupSym st lbl = none →
      tokenize_line [Lexeme.I Ins.Beq, Lexeme.Register s, Lexeme.Comma, Lexeme.Register t,
        Lexeme.Comma, Lexeme.Label lbl] st = some (some (Token.I 0x4 s t 0))) ∧
    (∀ (s t : Nat) (lbl : String),
      tokenize_line [Lexeme.I Ins.Addi, Lexeme.Register t, Lexeme.Comma, Lexeme.Register s,
        Lexeme.Comma, Lexeme.Label lbl] st = some (some (Token.I 0x8 s t 0))) := by
  have skip : ∀ l : List Lexeme, tokenize_line l st = some none →
      assemble_lines a (l :: ls) st = assemble_lines a ls st := by
    intro l hl
    show (match tokenize_line l st with
      | none => none
      | some none => assemble_lines a ls st
      | some (some tok) =>
        match assemble_lines (u32 (a + 4)) ls st with
        | none => none
        | some r => some ((a, asseble_token tok) :: r)) = assemble_lines a ls st
    rw [hl]
  have h1 : tokenize_line (Lexeme.R ins :: rest) st = some none := by
    match rest with
    | [] => rfl
    | [_] => rfl
    | [_, _] => rfl
    | [_, _, _] => rfl
    | [_, _, _, _] => rfl
    | [_, _, _, _, _] => simp at h
    | _ :: _ :: _ :: _ :: _ :: _ :: _ => rfl
  have hj : ∀ rest2 : List Lexeme, rest2.length ≠ 1 →
      tokenize_line (Lexeme.J Ins.J :: rest2) st = some none ∧
      tokenize_line (Lexeme.J Ins.Break :: rest2) st = some none := by
    intro rest2 h2
    match rest2 with
    | [] => exact ⟨rfl, rfl⟩
    | [_] => simp at h2
    | _ :: _ :: _ => exact ⟨rfl, rfl⟩
  refine ⟨h1, skip _ h1, ?_, fun lb1 lb3 lb5 => rfl, fun s t => rfl, ?_, fun s t lbl => rfl⟩
  · intro rest2 h2
    exact ⟨(hj rest2 h2).1, (hj rest2 h2).2, skip _ (hj rest2 h2).1, skip _ (hj rest2 h2).2⟩
  · intro s t lbl hn
    simp [tokenize_line, iFields, labelAddrOrZero, regOrZero, get_opcode, hn]

theorem c6_amended_witness :
    ([Lexeme.Register 8, Lexeme.Comma, Lexeme.Register 9] : List Lexeme).length ≠ 5 ∧
    ([] : List Lexeme).length ≠ 1 ∧
    tokenize_line
        (Lexeme.R Ins.Add :: [Lexeme.Register 8, Lexeme.Comma, Lexeme.Register 9]) []
      = some none ∧
    tokenize_line [Lexeme.J Ins.J] [] = some none :=
  ⟨by decide, by decide,
    (c6_amended_structural_failures Ins.Add
      [Lexeme.Register 8, Lexeme.Comma, Lexeme.Register 9] [] 0 [] (by decide)).1,
    ((c6_amended_structural_failures Ins.Add
      [Lexeme.Register 8, Lexeme.Comma, Lexeme.Register 9] [] 0 []
      (by decide)).2.2.1 [] (by decide)).1⟩

/-- Claim C9, counterexample: the immediate 65536 = 2^16 is not masked
to 16 bits: assembling `addi t0, t0, 65536` gives 0x21090000, whose
rt field reads back as 9 instead of 8 — the oversized operand altered
the register bits, and the claimed masked word 0x21080000 differs. -/
theorem c9_counterexample :
    assemble_file ["addi t0, t0, 65536"] = some [(0, 0x21090000)] ∧
    (0x21090000 : Nat) ≠ 0x21080000 ∧
    (0x21090000 >>> 16) % 2 ^ 5 = 9 ∧ (9 : Nat) ≠ 8 := by decide

/-- Claim C9, amended: the encoder applies no masking at all — the
immediate is or-ed into the word as-is and the jump address field is
not reduced to 26 bits — and an operand is never rejected; the opcode
and register bits are unaltered precisely when the operand already
fits its field, as stated here for fitting operands (the
counterexample shows an oversized one altering the register bits). -/
theorem c9_amended_fields_preserved_when_fit
    (op s t i a : Nat) (hi : i < 2 ^ 16) (ha : a < 2 ^ 26) :
    asseble_token (Token.I op s t i) % 2 ^ 16 = i ∧
    asseble_token (Token.I op s t i) >>> 16 = asseble_token (Token.I op s t 0) >>> 16 ∧
    asseble_token (Token.J op a) % 2 ^ 26 = a ∧
    asseble_token (Token.J op a) >>> 26 = asseble_token (Token.J op 0) >>> 26 := by
  have hu : u32 i = i := Nat.mod_eq_of_lt (lt_of_lt_of_le hi (by norm_num))
  have hua : u32 a = a := Nat.mod_eq_of_lt (lt_of_lt_of_le ha (by norm_num))
  refine ⟨?_, ?_, ?_, ?_⟩
  · show (u32 (u8 op <<< 26) ||| u32 (u8 s <<< 21) ||| u32 (u8 t <<< 16) ||| u32 i)
      % 2 ^ 16 = i
    rw [or_mod_two_pow, or_mod_two_pow, or_mod_two_pow,
      u32_shiftLeft_mod_eq_zero _ _ _ (by norm_num) (by norm_num),
      u32_shiftLeft_mod_eq_zero _ _ _ (by norm_num) (by norm_num),
      u32_shiftLeft_mod_eq_zero _ _ _ (by norm_num) (by norm_num),
      hu, Nat.mod_eq_of_lt hi]
    simp
  · show (u32 (u8 op <<< 26) ||| u32 (u8 s <<< 21) ||| u32 (u8 t <<< 16) ||| u32 i) >>> 16
      = (u32 (u8 op <<< 26) ||| u32 (u8 s <<< 21) ||| u32 (u8 t <<< 16) ||| u32 0) >>> 16
    have hz : u32 i >>> 16 = 0 := by
      rw [hu, Nat.shiftRight_eq_div_pow]
      exact Nat.div_eq_of_lt hi
    have hz0 : u32 0 >>> 16 = 0 := by simp [u32]
    simp only [or_shiftRight, hz, hz0]
  · show (u32 (u8 op <<< 26) ||| u32 a) % 2 ^ 26 = a
    rw [or_mod_two_pow,
      u32_shiftLeft_mod_eq_zero _ _ _ (by norm_num) (by norm_num),
      hua, Nat.mod_eq_of_lt ha]
    simp
  · show (u32 (u8 op <<< 26) ||| u32 a) >>> 26 = (u32 (u8 op <<< 26) ||| u32 0) >>> 26
    have hz : u32 a >>> 26 = 0 := by
      rw [hua, Nat.shiftRight_eq_div_pow]
      exact Nat.div_eq_of_lt ha
    have hz0 : u32 0 >>> 26 = 0 := by simp [u32]
    simp only [or_shiftRight, hz, hz0]

theorem c9_amended_witness :
    (7 : Nat) < 2 ^ 16 ∧ (5 : Nat) < 2 ^ 26 ∧
    asseble_token (Token.I 8 9 10 7) % 2 ^ 16 = 7 :=
  ⟨by decide, by decide,
    (c9_amended_fields_preserved_when_fit 8 9 10 7 5 (by decide) (by decide)).1⟩
